import Mathlib

/-!
Shallow embedding of the Pandacea adversarial economic simulation engine
(`sims/engine/model.py`) and its parameter-sweep driver (`sims/run_sweeps.py`).

Python floats are modelled as rationals (`ℚ`); all clamp/branch logic in the
source is exact arithmetic on literals, so `ℚ` is faithful for every property
stated here.  The pseudo-random generator (`random.random`, `random.choice`,
`random.shuffle`) is modelled as an explicit deterministic state machine
(`RandomSource`), threaded through every function exactly where the Python
code draws from the global generator; theorems that depend on the guarantee
`random.random() ∈ [0, 1)` take it as a hypothesis on the source.
-/

attribute [local semireducible] Rat.add Rat.mul Rat.inv Rat.sub Rat.ofScientific

namespace Pandacea

/-- `AgentType` enum from `model.py`. -/
inductive AgentType where
  | honest
  | colluder
  | griefer
  | hoarder
deriving DecidableEq, Repr

/-- One agent of the simulation: the fields of `Agent.__init__` plus the
archetype-specific attributes set by each subclass constructor
(`collusion_group`/`collusion_coordination` for `Colluder`,
`griefing_intensity` for `Griefer`, `hoarding_target`/`hoarding_strategy`
for `Hoarder`).  `hoarding_strategy_influence = true` models
`hoarding_strategy == 'influence'`. -/
structure Agent where
  agent_id : ℕ
  agent_type : AgentType
  stake : ℚ
  reputation : ℚ
  balance : ℚ
  total_revenue : ℚ
  total_losses : ℚ
  disputes_won : ℕ
  disputes_lost : ℕ
  is_active : Bool
  collusion_group : List ℕ
  collusion_coordination : ℚ
  griefing_intensity : ℚ
  hoarding_target : ℚ
  hoarding_strategy_influence : Bool
deriving DecidableEq, Repr

/-- `HonestEarner.__init__` (default `initial_reputation = 1.0`). -/
def mkHonest (agent_id : ℕ) (initial_stake : ℚ) : Agent :=
  { agent_id := agent_id, agent_type := .honest, stake := initial_stake,
    reputation := 1.0, balance := 0.0, total_revenue := 0.0, total_losses := 0.0,
    disputes_won := 0, disputes_lost := 0, is_active := true,
    collusion_group := [], collusion_coordination := 0,
    griefing_intensity := 0, hoarding_target := 0,
    hoarding_strategy_influence := false }

/-- `Colluder.__init__` (`initial_reputation = 0.8`, `collusion_coordination = 0.0`). -/
def mkColluder (agent_id : ℕ) (initial_stake : ℚ) (group : List ℕ) : Agent :=
  { agent_id := agent_id, agent_type := .colluder, stake := initial_stake,
    reputation := 0.8, balance := 0.0, total_revenue := 0.0, total_losses := 0.0,
    disputes_won := 0, disputes_lost := 0, is_active := true,
    collusion_group := group, collusion_coordination := 0.0,
    griefing_intensity := 0, hoarding_target := 0,
    hoarding_strategy_influence := false }

/-- `Griefer.__init__` (`initial_reputation = 0.6`; `griefing_intensity`
is drawn by the caller via `random.uniform(0.5, 1.0)` and passed here). -/
def mkGriefer (agent_id : ℕ) (initial_stake : ℚ) (intensity : ℚ) : Agent :=
  { agent_id := agent_id, agent_type := .griefer, stake := initial_stake,
    reputation := 0.6, balance := 0.0, total_revenue := 0.0, total_losses := 0.0,
    disputes_won := 0, disputes_lost := 0, is_active := true,
    collusion_group := [], collusion_coordination := 0,
    griefing_intensity := intensity, hoarding_target := 0,
    hoarding_strategy_influence := false }

/-- `Hoarder.__init__` (`initial_reputation = 0.9`,
`hoarding_target = initial_stake * 5`, strategy `'accumulate'`). -/
def mkHoarder (agent_id : ℕ) (initial_stake : ℚ) : Agent :=
  { agent_id := agent_id, agent_type := .hoarder, stake := initial_stake,
    reputation := 0.9, balance := 0.0, total_revenue := 0.0, total_losses := 0.0,
    disputes_won := 0, disputes_lost := 0, is_active := true,
    collusion_group := [], collusion_coordination := 0,
    griefing_intensity := 0, hoarding_target := initial_stake * 5,
    hoarding_strategy_influence := false }

/-- `Agent.get_stake_at_risk`. -/
def Agent.get_stake_at_risk (a : Agent) : ℚ := a.stake * (1 - a.reputation)

/-- `Agent.is_solvent`: `stake >= 0.1`. -/
def Agent.is_solvent (a : Agent) : Bool := decide ((0.1 : ℚ) ≤ a.stake)

/-- `update_state(reward, penalty, reputation_change)` of each archetype.
All four subclasses share the balance/revenue/losses/reputation updates;
the trailing side effect is archetype specific:
`HonestEarner` adds `reward * 0.1` to stake when `reward > 0`;
`Colluder` lowers coordination by `0.2` (floored at 0) when `penalty > reward`;
`Griefer` raises intensity by `0.1` (capped at 1) when `penalty > reward`,
otherwise lowers it by `0.05` (floored at `0.1`);
`Hoarder` adds `(reward - penalty) * 0.8` to stake when `reward > penalty`. -/
def Agent.update_state (a : Agent) (reward penalty reputation_change : ℚ) : Agent :=
  let a := { a with
    balance := a.balance + (reward - penalty),
    total_revenue := a.total_revenue + reward,
    total_losses := a.total_losses + penalty,
    reputation := max 0.0 (min 1.0 (a.reputation + reputation_change)) }
  match a.agent_type with
  | .honest =>
      if 0 < reward then { a with stake := a.stake + reward * 0.1 } else a
  | .colluder =>
      if reward < penalty then
        { a with collusion_coordination := max 0.0 (a.collusion_coordination - 0.2) }
      else a
  | .griefer =>
      if reward < penalty then
        { a with griefing_intensity := min 1.0 (a.griefing_intensity + 0.1) }
      else
        { a with griefing_intensity := max 0.1 (a.griefing_intensity - 0.05) }
  | .hoarder =>
      if penalty < reward then { a with stake := a.stake + (reward - penalty) * 0.8 } else a

/-- Body of `EconomicModel._apply_reputation_decay` for one agent:
active agents get `reputation = max(0.0, reputation * (1 - decay_rate))`,
inactive agents are untouched. -/
def decayAgent (decay_rate : ℚ) (a : Agent) : Agent :=
  if a.is_active then
    { a with reputation := max 0.0 (a.reputation * (1 - decay_rate)) }
  else a

/-- `EconomicModel._apply_reputation_decay` over the agent list. -/
def applyReputationDecay (decay_rate : ℚ) (agents : List Agent) : List Agent :=
  agents.map (decayAgent decay_rate)

/-- One event acting on a single agent's reputation: an `update_state` call
with arbitrary reward/penalty/delta, or one reputation-decay step. -/
inductive RepStep where
  | update (reward penalty delta : ℚ)
  | decay (rate : ℚ)
deriving Repr

/-- Apply one `RepStep` to an agent. -/
def applyRepStep (a : Agent) : RepStep → Agent
  | .update r p d => a.update_state r p d
  | .decay rate => decayAgent rate a

/-- A decay step is valid when its rate lies in `[0, 1]`; update steps are
unrestricted (the claim quantifies over arbitrary reward/penalty/delta). -/
def RepStep.Valid : RepStep → Prop
  | .update _ _ _ => True
  | .decay rate => 0 ≤ rate ∧ rate ≤ 1

instance : DecidablePred RepStep.Valid := by
  intro s; cases s <;> simp [RepStep.Valid] <;> infer_instance

lemma update_state_reputation_mem (a : Agent) (r p d : ℚ) :
    0 ≤ (a.update_state r p d).reputation ∧ (a.update_state r p d).reputation ≤ 1 := by
  unfold Agent.update_state
  have h0 : (0 : ℚ) ≤ max 0.0 (min 1.0 (a.reputation + d)) := by
    simp only [le_max_iff]
    left
    norm_num
  have h1 : max 0.0 (min 1.0 (a.reputation + d)) ≤ 1 := by
    apply max_le
    · norm_num
    · calc min 1.0 (a.reputation + d) ≤ 1.0 := min_le_left _ _
        _ ≤ 1 := by norm_num
  cases a.agent_type <;> dsimp only <;> split <;> exact ⟨h0, h1⟩

lemma decayAgent_reputation_mem (a : Agent) (rate : ℚ)
    (ha : 0 ≤ a.reputation ∧ a.reputation ≤ 1) (hr : 0 ≤ rate ∧ rate ≤ 1) :
    0 ≤ (decayAgent rate a).reputation ∧ (decayAgent rate a).reputation ≤ 1 := by
  unfold decayAgent
  split
  · constructor
    · simp only [le_max_iff]
      left
      norm_num
    · apply max_le
      · norm_num
      · have hle : a.reputation * (1 - rate) ≤ 1 := by
          have h1r0 : (0 : ℚ) ≤ 1 - rate := by linarith [hr.2]
          have h1r1 : 1 - rate ≤ 1 := by linarith [hr.1]
          calc a.reputation * (1 - rate) ≤ 1 * 1 :=
                mul_le_mul ha.2 h1r1 h1r0 (by norm_num)
            _ = 1 := by norm_num
        simpa using hle
  · exact ha

lemma applyRepStep_reputation_mem (a : Agent) (s : RepStep) (hs : s.Valid)
    (ha : 0 ≤ a.reputation ∧ a.reputation ≤ 1) :
    0 ≤ (applyRepStep a s).reputation ∧ (applyRepStep a s).reputation ≤ 1 := by
  cases s with
  | update r p d => exact update_state_reputation_mem a r p d
  | decay rate => exact decayAgent_reputation_mem a rate ha hs

/-- C1 -- For every agent (any archetype) whose reputation starts in `[0, 1]`
(as produced by every constructor) and every sequence of `update_state` calls
with arbitrary reward/penalty/delta interleaved with reputation-decay steps
whose `decay_rate ∈ [0, 1]`, the reputation lies in `[0, 1]` after every
prefix of the sequence, i.e. after each update and after each decay step. -/
theorem reputation_always_in_unit_interval (a : Agent) (steps : List RepStep)
    (hv : ∀ s ∈ steps, s.Valid)
    (ha : 0 ≤ a.reputation ∧ a.reputation ≤ 1) (n : ℕ) :
    0 ≤ ((steps.take n).foldl applyRepStep a).reputation ∧
      ((steps.take n).foldl applyRepStep a).reputation ≤ 1 := by
  induction steps generalizing a n with
  | nil => simpa using ha
  | cons s rest ih =>
      cases n with
      | zero => simpa using ha
      | succ m =>
          have hs : s.Valid := hv s (by simp)
          have hrest : ∀ t ∈ rest, t.Valid := fun t ht => hv t (by simp [ht])
          simpa using ih (applyRepStep a s) hrest
            (applyRepStep_reputation_mem a s hs ha) m

/-- Witness for C1 at a concrete agent and step sequence. -/
theorem reputation_always_in_unit_interval_witness :
    0 ≤ (((([RepStep.update 5 2 3, RepStep.decay 0.5,
        RepStep.update (-1) 4 (-9)]).take 3).foldl applyRepStep (mkHonest 0 1)).reputation) ∧
      ((([RepStep.update 5 2 3, RepStep.decay 0.5,
        RepStep.update (-1) 4 (-9)]).take 3).foldl applyRepStep (mkHonest 0 1)).reputation ≤ 1 :=
  reputation_always_in_unit_interval (mkHonest 0 1)
    [RepStep.update 5 2 3, RepStep.decay 0.5, RepStep.update (-1) 4 (-9)]
    (by decide) (by constructor <;> norm_num [mkHonest]) 3

/-- C4 counterexample -- the claim "stake increases by `0.1 × (reward − penalty)`
when `reward − penalty > 0`" is false on `HonestEarner.update_state`: at
`reward = 2, penalty = 1` (net profit `1 > 0`) the code yields stake
`1 + 2 * 0.1 = 1.2`, not the claimed `1 + 0.1 * (2 - 1) = 1.1`. -/
theorem honest_reinvest_counterexample :
    (0 : ℚ) < 2 - 1 ∧
      ((mkHonest 0 1).update_state 2 1 0).stake = 1.2 ∧
      ¬ ((mkHonest 0 1).update_state 2 1 0).stake = (mkHonest 0 1).stake + 0.1 * (2 - 1) := by
  refine ⟨by norm_num, by decide, by decide⟩

/-- C4 (amended) -- `HonestEarner.update_state` adds `reward * 0.1` to the
stake whenever `reward > 0` (gross reward, ignoring the penalty), and leaves
the stake unchanged otherwise. -/
theorem honest_update_stake (a : Agent) (r p d : ℚ) (h : a.agent_type = .honest) :
    (a.update_state r p d).stake = if 0 < r then a.stake + r * 0.1 else a.stake := by
  obtain ⟨id, ty, st, rep, bal, rev, los, dw, dl, act, cg, cc, gi, ht, hs⟩ := a
  cases h
  dsimp [Agent.update_state]
  split <;> rfl

/-- Witness for C4's amended theorem at a concrete honest agent. -/
theorem honest_update_stake_witness :
    ((mkHonest 0 1).update_state 2 1 0).stake =
      if (0 : ℚ) < 2 then (mkHonest 0 1).stake + 2 * 0.1 else (mkHonest 0 1).stake :=
  honest_update_stake (mkHonest 0 1) 2 1 0 rfl

lemma update_state_stake_mono (a : Agent) (r p d : ℚ) :
    a.stake ≤ (a.update_state r p d).stake := by
  obtain ⟨id, ty, st, rep, bal, rev, los, dw, dl, act, cg, cc, gi, ht, hs⟩ := a
  cases ty <;> dsimp [Agent.update_state] <;> split <;> try rfl
  · rename_i hr
    have h1 : (0 : ℚ) ≤ r * 0.1 := by
      have : (0 : ℚ) ≤ r := le_of_lt hr
      nlinarith
    linarith
  · rename_i hr
    have h1 : (0 : ℚ) ≤ (r - p) * 0.8 := by
      have : (0 : ℚ) ≤ r - p := by linarith
      nlinarith
    linarith

/-- C7 -- For every agent (any archetype) with non-negative stake and every
sequence of `update_state` calls with arbitrary reward/penalty/delta triples,
the stake is still non-negative after every prefix of the sequence (no
archetype's reinvestment rule ever decreases the stake). -/
theorem stake_nonneg_under_updates (a : Agent) (l : List (ℚ × ℚ × ℚ))
    (h : 0 ≤ a.stake) (n : ℕ) :
    0 ≤ ((l.take n).foldl (fun b t => b.update_state t.1 t.2.1 t.2.2) a).stake := by
  induction l generalizing a n with
  | nil => simpa using h
  | cons t rest ih =>
      cases n with
      | zero => simpa using h
      | succ m =>
          have hstep : 0 ≤ (a.update_state t.1 t.2.1 t.2.2).stake :=
            le_trans h (update_state_stake_mono a t.1 t.2.1 t.2.2)
          simpa using ih (a.update_state t.1 t.2.1 t.2.2) hstep m

/-- Witness for C7 at a concrete hoarder and update sequence. -/
theorem stake_nonneg_under_updates_witness :
    0 ≤ ((([((3 : ℚ), (1 : ℚ), (0 : ℚ)), ((-2 : ℚ), (5 : ℚ), (1 : ℚ))]).take 2).foldl
      (fun b t => b.update_state t.1 t.2.1 t.2.2) (mkHoarder 7 0)).stake :=
  stake_nonneg_under_updates (mkHoarder 7 0)
    [((3 : ℚ), (1 : ℚ), (0 : ℚ)), ((-2 : ℚ), (5 : ℚ), (1 : ℚ))] (by decide) 2

/-- Deterministic model of Python's global PRNG as used by the engine:
`random s` models `random.random()` (one draw, returning a value the Python
library guarantees to lie in `[0, 1)`); `choiceIdx n s` models the index
drawn by `random.choice` on a sequence of length `n`; `shuffleNat l s`
models `random.shuffle` (an in-place permutation).  All three are pure
functions of the generator state, which is exactly what seeding guarantees. -/
structure RandomSource (σ : Type) where
  random : σ → ℚ × σ
  choiceIdx : ℕ → σ → ℕ × σ
  shuffleNat : List ℕ → σ → List ℕ × σ

variable {σ : Type}

/-- `random.uniform(lo, hi) = lo + (hi - lo) * random.random()`. -/
def uniform (src : RandomSource σ) (lo hi : ℚ) (s : σ) : ℚ × σ :=
  let (r, s') := src.random s
  (lo + (hi - lo) * r, s')

/-- `random.choice(l)`: pick the element at a generator-driven index
(taken mod the length, which Python guarantees to be in range). -/
def pyChoice (src : RandomSource σ) (l : List ℚ) (s : σ) : ℚ × σ :=
  let (i, s') := src.choiceIdx l.length s
  (l.getD (i % l.length) 0, s')

/-- The source whose `random.random()` is constantly `0`, `choice` always
picks index `0` and `shuffle` is the identity permutation: one concrete
instance of `RandomSource` used to evaluate runs on explicit inputs. -/
def zeroSource : RandomSource Unit :=
  { random := fun _ => (0, ()),
    choiceIdx := fun _ _ => (0, ()),
    shuffleNat := fun l _ => (l, ()) }

/-- The action dict built by `decide_action` (plus the `agent_id` /
`agent_type` keys that `run_epoch` attaches to it before processing). -/
structure Action where
  agent_id : ℕ
  agent_type : AgentType
  action : String
  stake_committed : ℚ
  quality : ℚ
  collude : Bool
  grief : Bool
  hoard : Bool
  collusion_group : List ℕ
deriving DecidableEq, Repr

/-- One per-agent outcome dict appended by `_process_actions`. -/
structure Outcome where
  agent_id : ℕ
  agent_type : AgentType
  reward : ℚ
  penalty : ℚ
  reputation_change : ℚ
  action : String
deriving DecidableEq, Repr

/-- The dict returned by `EconomicModel._get_network_state`. -/
structure NetworkState where
  total_agents : ℕ
  total_stake : ℚ
  average_reputation : ℚ
  liveness : ℚ
  epoch : ℕ
deriving Repr

/-- `decide_action(epoch, network_state)` of each archetype.  The Python
methods mutate `self` (colluder coordination, hoarder strategy switch), so
the embedding returns the updated agent alongside the action.  RNG draws
happen in source order: the branch-deciding `random.random()` first, then
the single `random.uniform` of the chosen branch. -/
def decide_action (src : RandomSource σ) (a : Agent) (_epoch : ℕ) (ns : NetworkState)
    (s : σ) : Action × Agent × σ :=
  match a.agent_type with
  | .honest =>
      let (q, s) := uniform src 0.8 1.0 s
      ({ agent_id := a.agent_id, agent_type := a.agent_type, action := "contribute",
         stake_committed := min (a.stake * 0.1) 1.0, quality := q,
         collude := false, grief := false, hoard := false, collusion_group := [] }, a, s)
  | .colluder =>
      let a := if a.collusion_group.isEmpty then a
        else { a with collusion_coordination := min 1.0 (a.collusion_coordination + 0.1) }
      let (r, s) := src.random s
      let will_collude : Bool := decide (r < a.collusion_coordination)
      let (q, s) := if will_collude then uniform src 0.3 0.7 s else uniform src 0.6 0.9 s
      ({ agent_id := a.agent_id, agent_type := a.agent_type,
         action := if will_collude then "collude" else "contribute",
         stake_committed := if will_collude then a.stake * 0.3 else a.stake * 0.1,
         quality := q, collude := will_collude, grief := false, hoard := false,
         collusion_group := if will_collude then a.collusion_group else [] }, a, s)
  | .griefer =>
      let grief_prob := a.griefing_intensity * (1 - ns.liveness)
      let (r, s) := src.random s
      let will_grief : Bool := decide (r < grief_prob)
      let (q, s) := if will_grief then uniform src 0.1 0.4 s else uniform src 0.5 0.8 s
      ({ agent_id := a.agent_id, agent_type := a.agent_type,
         action := if will_grief then "grief" else "contribute",
         stake_committed := if will_grief then a.stake * 0.5 else a.stake * 0.1,
         quality := q, collude := false, grief := will_grief, hoard := false,
         collusion_group := [] }, a, s)
  | .hoarder =>
      let a := if a.hoarding_target ≤ a.stake
        then { a with hoarding_strategy_influence := true } else a
      if a.hoarding_strategy_influence = false then
        let (q, s) := uniform src 0.7 0.9 s
        ({ agent_id := a.agent_id, agent_type := a.agent_type, action := "contribute",
           stake_committed := a.stake * 0.05, quality := q,
           collude := false, grief := false, hoard := true, collusion_group := [] }, a, s)
      else
        let (q, s) := uniform src 0.6 0.8 s
        ({ agent_id := a.agent_id, agent_type := a.agent_type, action := "influence",
           stake_committed := a.stake * 0.3, quality := q,
           collude := false, grief := false, hoard := true, collusion_group := [] }, a, s)

/-- The configuration document consumed by the engine: the keys of
`params.yaml` that `model.py` and `run_sweeps.py` read (`economic.*`,
`attacks.*`, `simulation.*`, `network.*`, the top-level `seed` and the
per-run `reputation_decay` that `run_single_simulation` writes back). -/
structure Config where
  base_reward : ℚ
  reputation_multiplier : ℚ
  dispute_cost : ℚ
  dispute_penalty : ℚ
  collusion_detection_prob : ℚ
  collusion_penalty_multiplier : ℚ
  griefing_cost : ℚ
  griefing_effectiveness : ℚ
  hoarding_cost : ℚ
  hoarding_efficiency : ℚ
  sybil_cost : ℚ
  reputation_decay : ℚ
  transactions_per_epoch : ℕ
  epochs : ℕ
  warmup_epochs : ℕ
  total_agents : ℕ
  honest_percentage : ℚ
  colluder_percentage : ℚ
  griefer_percentage : ℚ
  hoarder_percentage : ℚ
  seed : ℤ
deriving DecidableEq, Repr

/-- `EconomicModel` instance state: `__init__` fields. -/
structure Model where
  cfg : Config
  agents : List Agent
  epoch : ℕ
  total_revenue : ℚ
  total_stake : ℚ
  dispute_resolutions : ℕ
  collusion_detections : ℕ
deriving DecidableEq, Repr

/-- Replace the element at an index, when it exists (`l[i] = v` on a
Python list; indices past the end never occur in the engine because
`agent_id` equals the agent's position in `self.agents`). -/
def listSet {α : Type} (f : α → α) : ℕ → List α → List α
  | _, [] => []
  | 0, x :: l => f x :: l
  | n + 1, x :: l => x :: listSet f n l

/-- A placeholder for the (never exercised) out-of-range lookup
`self.agents[i]`. -/
def defaultAgent : Agent := mkHonest 0 0

/-- `np.mean` over a list of rationals. -/
def qMean (l : List ℚ) : ℚ := l.sum / l.length

/-- Stakes of active agents, summed (`EconomicModel._update_total_stake`). -/
def sumActiveStake (agents : List Agent) : ℚ :=
  ((agents.filter (·.is_active)).map (·.stake)).sum

/-- `EconomicModel._get_network_state`. -/
def networkState (m : Model) : NetworkState :=
  let active_agents := m.agents.filter (·.is_active)
  { total_agents := active_agents.length,
    total_stake := m.total_stake,
    average_reputation := qMean (active_agents.map (·.reputation)),
    liveness := (active_agents.length : ℚ) / (m.agents.length : ℚ),
    epoch := m.epoch }

/-- The action-collection loop of `run_epoch`: every active, solvent agent
is asked for a decision (which may mutate that agent in place); inactive or
insolvent agents are skipped and left untouched. -/
def collectActions (src : RandomSource σ) (epoch : ℕ) (ns : NetworkState) :
    List Agent → σ → List Agent × List Action × σ
  | [], s => ([], [], s)
  | a :: rest, s =>
      if a.is_active && a.is_solvent then
        let (act, a', s') := decide_action src a epoch ns s
        let (rest', acts, s'') := collectActions src epoch ns rest s'
        (a' :: rest', act :: acts, s'')
      else
        let (rest', acts, s'') := collectActions src epoch ns rest s
        (a :: rest', acts, s'')

/-- The engine counters and agent list threaded through `_process_actions`. -/
structure ProcState where
  agents : List Agent
  total_revenue : ℚ
  dispute_resolutions : ℕ
  collusion_detections : ℕ
deriving DecidableEq, Repr

/-- The body of `_process_actions` for one action, up to the final revenue
accumulation: returns the final `(reward, penalty, reputation_change)`,
the updated global counters, the (possibly dispute-mutated) agent and the
generator state. -/
def processCore (cfg : Config) (src : RandomSource σ) (act : Action) (agent : Agent)
    (detections disputes : ℕ) (s : σ) : ℚ × ℚ × ℚ × ℕ × ℕ × Agent × σ :=
  let base_reward := cfg.base_reward
  let quality_multiplier := act.quality
  let reputation_multiplier := 1 + (agent.reputation - 0.5) * cfg.reputation_multiplier
  let reward := base_reward * quality_multiplier * reputation_multiplier
  let (reward, penalty, reputation_change, detections, s) : ℚ × ℚ × ℚ × ℕ × σ :=
    if act.collude then
      let (r, s) := src.random s
      if r < cfg.collusion_detection_prob then
        (reward, reward * cfg.collusion_penalty_multiplier, -0.3, detections + 1, s)
      else
        (reward * 1.5, 0, 0, detections, s)
    else if act.grief then
      let (_, s) := src.random s
      (reward, cfg.griefing_cost, -0.2, detections, s)
    else if act.hoard then
      let (r, s) := src.random s
      if r < cfg.hoarding_efficiency then
        (reward, cfg.hoarding_cost, 0.1, detections, s)
      else
        (reward, cfg.hoarding_cost, 0, detections, s)
    else
      (reward, 0, 0, detections, s)
  let (r, s) := src.random s
  if r < 0.1 then
    let (r2, s) := src.random s
    if r2 < agent.reputation then
      (reward + cfg.dispute_cost, penalty, reputation_change, detections, disputes + 1,
        { agent with disputes_won := agent.disputes_won + 1 }, s)
    else
      (reward, penalty + cfg.dispute_penalty, reputation_change - 0.1, detections,
        disputes + 1, { agent with disputes_lost := agent.disputes_lost + 1 }, s)
  else
    (reward, penalty, reputation_change, detections, disputes, agent, s)

/-- One iteration of the `_process_actions` loop: run `processCore` on the
agent looked up by `action['agent_id']`, write the mutated agent back,
accumulate the gross reward into `total_revenue` and emit the outcome dict. -/
def processOne (cfg : Config) (src : RandomSource σ) (act : Action) (st : ProcState)
    (s : σ) : Outcome × ProcState × σ :=
  let agent := st.agents.getD act.agent_id defaultAgent
  let (reward, penalty, reputation_change, detections, disputes, agent', s') :=
    processCore cfg src act agent st.collusion_detections st.dispute_resolutions s
  ({ agent_id := act.agent_id, agent_type := act.agent_type, reward := reward,
     penalty := penalty, reputation_change := reputation_change, action := act.action },
   { agents := listSet (fun _ => agent') act.agent_id st.agents,
     total_revenue := st.total_revenue + reward,
     dispute_resolutions := disputes,
     collusion_detections := detections }, s')

/-- `EconomicModel._process_actions` over the action list, in order. -/
def processActions (cfg : Config) (src : RandomSource σ) :
    List Action → ProcState → σ → List Outcome × ProcState × σ
  | [], st, s => ([], st, s)
  | act :: rest, st, s =>
      let (o, st', s') := processOne cfg src act st s
      let (os, st'', s'') := processActions cfg src rest st' s'
      (o :: os, st'', s'')

/-- The epoch summary dict returned by `run_epoch`. -/
structure EpochSummary where
  epoch : ℕ
  total_revenue : ℚ
  total_stake : ℚ
  active_agents : ℕ
  outcomes : List Outcome
deriving DecidableEq, Repr

/-- `EconomicModel.run_epoch`: bump the epoch counter, snapshot the network
state, collect actions from active solvent agents, process them, apply each
outcome to its agent via `update_state`, decay reputations, recompute the
total stake, and return the epoch summary. -/
def run_epoch (src : RandomSource σ) (m : Model) (s : σ) : EpochSummary × Model × σ :=
  let m := { m with epoch := m.epoch + 1 }
  let ns := networkState m
  let (agents, actions, s) := collectActions src m.epoch ns m.agents s
  let st : ProcState :=
    { agents := agents, total_revenue := m.total_revenue,
      dispute_resolutions := m.dispute_resolutions,
      collusion_detections := m.collusion_detections }
  let (outcomes, st, s) := processActions m.cfg src actions st s
  let agents := outcomes.foldl
    (fun ags o =>
      listSet (fun a => a.update_state o.reward o.penalty o.reputation_change) o.agent_id ags)
    st.agents
  let agents := applyReputationDecay m.cfg.reputation_decay agents
  let total_stake := sumActiveStake agents
  let m' : Model :=
    { cfg := m.cfg, agents := agents, epoch := m.epoch,
      total_revenue := st.total_revenue, total_stake := total_stake,
      dispute_resolutions := st.dispute_resolutions,
      collusion_detections := st.collusion_detections }
  ({ epoch := m'.epoch, total_revenue := m'.total_revenue, total_stake := total_stake,
     active_agents := (agents.filter (·.is_active)).length, outcomes := outcomes }, m', s)

/-- Python `int()` on a rational: truncation toward zero. -/
def pyInt (q : ℚ) : ℤ := if q < 0 then -(⌊-q⌋) else ⌊q⌋

/-- `int(q)` used as a loop bound (`range(n)` is empty for `n ≤ 0`). -/
def pyIntNat (q : ℚ) : ℕ := (pyInt q).toNat

/-- `l[i:i+k]` chunking of `for i in range(0, n, k)`, fuel-indexed so the
recursion is structural (the fuel is the list length, always sufficient).
Defined for `k ≥ 1`; Python raises `ValueError` on a zero step. -/
def chunkListAux {α : Type} (k : ℕ) : ℕ → List α → List (List α)
  | 0, _ => []
  | _, [] => []
  | fuel + 1, x :: l => (x :: l.take (k - 1)) :: chunkListAux k fuel (l.drop (k - 1))

/-- Split a list into consecutive chunks of size `k`. -/
def chunkList {α : Type} (k : ℕ) (l : List α) : List (List α) :=
  chunkListAux k l.length l

/-- `EconomicModel._create_collusion_groups`: shuffle the identities
`0 .. num_colluders - 1`, split them into chunks of `group_size`, and keep
only the chunks with at least two members. -/
def create_collusion_groups (src : RandomSource σ) (num_colluders group_size : ℕ)
    (s : σ) : List (List ℕ) × σ :=
  let colluder_ids := List.range num_colluders
  let (colluder_ids, s') := src.shuffleNat colluder_ids s
  ((chunkList group_size colluder_ids).filter (fun g => decide (2 ≤ g.length)), s')

/-- The `agent_distribution` dict assembled by `run_single_simulation`. -/
structure AgentDistribution where
  total_agents : ℕ
  honest_percentage : ℚ
  colluder_percentage : ℚ
  griefer_percentage : ℚ
  hoarder_percentage : ℚ
  collusion_size : ℕ
deriving DecidableEq, Repr

/-- The honest-agent creation loop of `initialize_agents`: `n` agents with
consecutive ids starting at `agent_id`, each with a stake drawn by
`random.choice(stake_levels)`. -/
def mkHonestAgents (src : RandomSource σ) (levels : List ℚ) :
    ℕ → ℕ → σ → List Agent × ℕ × σ
  | 0, agent_id, s => ([], agent_id, s)
  | n + 1, agent_id, s =>
      let (stake, s) := pyChoice src levels s
      let (rest, agent_id', s') := mkHonestAgents src levels n (agent_id + 1) s
      (mkHonest agent_id stake :: rest, agent_id', s')

/-- The colluder creation loop: one `Colluder` per collusion group. -/
def mkColluderAgents (src : RandomSource σ) (levels : List ℚ) :
    List (List ℕ) → ℕ → σ → List Agent × ℕ × σ
  | [], agent_id, s => ([], agent_id, s)
  | g :: gs, agent_id, s =>
      let (stake, s) := pyChoice src levels s
      let (rest, agent_id', s') := mkColluderAgents src levels gs (agent_id + 1) s
      (mkColluder agent_id stake g :: rest, agent_id', s')

/-- The griefer creation loop (`Griefer.__init__` draws
`random.uniform(0.5, 1.0)` for its intensity). -/
def mkGrieferAgents (src : RandomSource σ) (levels : List ℚ) :
    ℕ → ℕ → σ → List Agent × ℕ × σ
  | 0, agent_id, s => ([], agent_id, s)
  | n + 1, agent_id, s =>
      let (stake, s) := pyChoice src levels s
      let (intensity, s) := uniform src 0.5 1.0 s
      let (rest, agent_id', s') := mkGrieferAgents src levels n (agent_id + 1) s
      (mkGriefer agent_id stake intensity :: rest, agent_id', s')

/-- The hoarder creation loop. -/
def mkHoarderAgents (src : RandomSource σ) (levels : List ℚ) :
    ℕ → ℕ → σ → List Agent × ℕ × σ
  | 0, agent_id, s => ([], agent_id, s)
  | n + 1, agent_id, s =>
      let (stake, s) := pyChoice src levels s
      let (rest, agent_id', s') := mkHoarderAgents src levels n (agent_id + 1) s
      (mkHoarder agent_id stake :: rest, agent_id', s')

/-- `EconomicModel.initialize_agents`: per-archetype counts are
`int(total_agents * percentage)`; honest, colluder, griefer and hoarder
agents are appended in that order with sequential ids. -/
def initialize_agents (src : RandomSource σ) (stake_levels : List ℚ)
    (dist : AgentDistribution) (s : σ) : List Agent × σ :=
  let num_honest := pyIntNat ((dist.total_agents : ℚ) * dist.honest_percentage)
  let (honest, agent_id, s) := mkHonestAgents src stake_levels num_honest 0 s
  let num_colluders := pyIntNat ((dist.total_agents : ℚ) * dist.colluder_percentage)
  let (groups, s) := create_collusion_groups src num_colluders dist.collusion_size s
  let (colluders, agent_id, s) := mkColluderAgents src stake_levels groups agent_id s
  let num_griefers := pyIntNat ((dist.total_agents : ℚ) * dist.griefer_percentage)
  let (griefers, agent_id, s) := mkGrieferAgents src stake_levels num_griefers agent_id s
  let num_hoarders := pyIntNat ((dist.total_agents : ℚ) * dist.hoarder_percentage)
  let (hoarders, _, s) := mkHoarderAgents src stake_levels num_hoarders agent_id s
  (honest ++ colluders ++ griefers ++ hoarders, s)

/-- The `SimulationResult` dataclass. -/
structure SimulationResult where
  honest_share_of_revenue : ℚ
  expected_loss_for_honest : ℚ
  stake_at_risk_curves : List (ℚ × ℚ)
  liveness_score : ℚ
  collusion_detection_rate : ℚ
  griefing_effectiveness : ℚ
  hoarding_influence : ℚ
  total_transactions : ℕ
  successful_attacks : ℕ
  failed_attacks : ℤ
deriving DecidableEq, Repr

/-- `EconomicModel.get_simulation_result`.  The two division sites that make
Python raise `ZeroDivisionError` — `liveness_score` on an empty agent
population, and `hoarding_influence` when a hoarder exists while
`total_stake = 0` — are modelled as `none` (the run produces no result). -/
def get_simulation_result (m : Model) : Option SimulationResult :=
  let active_agents := m.agents.filter (·.is_active)
  let honest_agents := active_agents.filter (fun a => decide (a.agent_type = .honest))
  let total_honest_revenue := (honest_agents.map (·.total_revenue)).sum
  let honest_share := total_honest_revenue / max 1 m.total_revenue
  let expected_loss :=
    if honest_agents.isEmpty then 0 else qMean (honest_agents.map (·.total_losses))
  let stake_at_risk := ([0.5, 1.0, 2.0, 5.0, 10.0] : List ℚ).filterMap fun level =>
    let agents_at_level := active_agents.filter fun a => decide (|a.stake - level| < 0.1)
    if agents_at_level.isEmpty then none
    else some (level, qMean (agents_at_level.map Agent.get_stake_at_risk))
  if m.agents.length = 0 then none
  else
    let liveness_score := (active_agents.length : ℚ) / (m.agents.length : ℚ)
    let colluder_agents := active_agents.filter (fun a => decide (a.agent_type = .colluder))
    let griefer_agents := active_agents.filter (fun a => decide (a.agent_type = .griefer))
    let hoarder_agents := active_agents.filter (fun a => decide (a.agent_type = .hoarder))
    let collusion_detection_rate :=
      (m.collusion_detections : ℚ) / ((max 1 colluder_agents.length : ℕ) : ℚ)
    let griefing_effectiveness :=
      if griefer_agents.isEmpty then 0 else qMean (griefer_agents.map (·.griefing_intensity))
    if !hoarder_agents.isEmpty && m.total_stake = 0 then none
    else
      let hoarding_influence :=
        if hoarder_agents.isEmpty then 0
        else qMean (hoarder_agents.map (fun a => a.stake / m.total_stake))
      some
        { honest_share_of_revenue := honest_share,
          expected_loss_for_honest := expected_loss,
          stake_at_risk_curves := stake_at_risk,
          liveness_score := liveness_score,
          collusion_detection_rate := collusion_detection_rate,
          griefing_effectiveness := griefing_effectiveness,
          hoarding_influence := hoarding_influence,
          total_transactions := m.epoch * m.cfg.transactions_per_epoch,
          successful_attacks := m.collusion_detections,
          failed_attacks := (colluder_agents.length : ℤ) - (m.collusion_detections : ℤ) }

/-- The epoch loop of `run_single_simulation` (the loop body only skips
warmup epochs in an analysis that does nothing, so it is just iteration). -/
def runEpochs (src : RandomSource σ) : ℕ → Model → σ → Model × σ
  | 0, m, s => (m, s)
  | n + 1, m, s =>
      let (_, m', s') := run_epoch src m s
      runEpochs src n m' s'

/-- The per-run result row dict returned by `run_single_simulation`. -/
structure RunRow where
  run_id : ℤ
  stake_level : ℚ
  reputation_decay : ℚ
  collusion_size : ℕ
  sybil_cost : ℚ
  honest_share_of_revenue : ℚ
  expected_loss_for_honest : ℚ
  liveness_score : ℚ
  collusion_detection_rate : ℚ
  griefing_effectiveness : ℚ
  hoarding_influence : ℚ
  total_transactions : ℕ
  successful_attacks : ℕ
  failed_attacks : ℤ
  total_revenue : ℚ
  total_stake : ℚ
  dispute_resolutions : ℕ
  collusion_detections : ℕ
deriving DecidableEq, Repr

/-- `run_single_simulation(stake_level, reputation_decay, collusion_size,
sybil_cost, config, run_id)`.  `seedFn` models
`random.seed(config['seed'] + run_id)`: the generator state is a pure
function of the seed (the unused `np.random` generator is seeded too but
never drawn from).  A Python exception (the division-by-zero sites of
`get_simulation_result`) is `none`. -/
def run_single_simulation (src : RandomSource σ) (seedFn : ℤ → σ)
    (stake_level reputation_decay : ℚ) (collusion_size : ℕ) (sybil_cost : ℚ)
    (config : Config) (run_id : ℤ) : Option RunRow :=
  let s := seedFn (config.seed + run_id)
  let dist : AgentDistribution :=
    { total_agents := config.total_agents,
      honest_percentage := config.honest_percentage,
      colluder_percentage := config.colluder_percentage,
      griefer_percentage := config.griefer_percentage,
      hoarder_percentage := config.hoarder_percentage,
      collusion_size := collusion_size }
  let (agents, s) := initialize_agents src [stake_level] dist s
  let cfg := { config with reputation_decay := reputation_decay, sybil_cost := sybil_cost }
  let m : Model :=
    { cfg := cfg, agents := agents, epoch := 0, total_revenue := 0.0,
      total_stake := sumActiveStake agents, dispute_resolutions := 0,
      collusion_detections := 0 }
  let (m, _) := runEpochs src config.epochs m s
  (get_simulation_result m).map fun result =>
    { run_id := run_id, stake_level := stake_level,
      reputation_decay := reputation_decay, collusion_size := collusion_size,
      sybil_cost := sybil_cost,
      honest_share_of_revenue := result.honest_share_of_revenue,
      expected_loss_for_honest := result.expected_loss_for_honest,
      liveness_score := result.liveness_score,
      collusion_detection_rate := result.collusion_detection_rate,
      griefing_effectiveness := result.griefing_effectiveness,
      hoarding_influence := result.hoarding_influence,
      total_transactions := result.total_transactions,
      successful_attacks := result.successful_attacks,
      failed_attacks := result.failed_attacks,
      total_revenue := m.total_revenue, total_stake := m.total_stake,
      dispute_resolutions := m.dispute_resolutions,
      collusion_detections := m.collusion_detections }

/-- The nested loop of `run_parameter_sweep`, abstracted over the function
`runFn` that represents `run_single_simulation` on a fixed configuration:
`runFn sl rd cs sc rid = none` models the repetition at that grid point and
run index raising an exception, which the `try/except` catches, logs and
skips.  The grid is the Cartesian product of the four axes in `itertools.product`
order, each point repeated for `run_id` in `0 .. runs_per_point - 1`; a row is
collected exactly when the repetition succeeds. -/
def run_parameter_sweep {Row : Type} (runFn : ℚ → ℚ → ℕ → ℚ → ℕ → Option Row)
    (stake_levels reputation_decays : List ℚ) (collusion_sizes : List ℕ)
    (sybil_costs : List ℚ) (runs_per_point : ℕ) : List Row :=
  stake_levels.flatMap fun sl =>
    reputation_decays.flatMap fun rd =>
      collusion_sizes.flatMap fun cs =>
        sybil_costs.flatMap fun sc =>
          (List.range runs_per_point).filterMap fun rid => runFn sl rd cs sc rid

/-- The number of repetitions of the sweep whose run raised (and was
caught): the rows dropped from the raw table. -/
def sweepFailures {Row : Type} (runFn : ℚ → ℚ → ℕ → ℚ → ℕ → Option Row)
    (stake_levels reputation_decays : List ℚ) (collusion_sizes : List ℕ)
    (sybil_costs : List ℚ) (runs_per_point : ℕ) : ℕ :=
  ((stake_levels.flatMap fun sl =>
    reputation_decays.flatMap fun rd =>
      collusion_sizes.flatMap fun cs =>
        sybil_costs.flatMap fun sc =>
          (List.range runs_per_point).map fun rid => runFn sl rd cs sc rid).filter
    (fun r => r.isNone)).length

/-- A concrete configuration used to instantiate hypothesis-bearing theorems. -/
def cfgW : Config :=
  { base_reward := 1, reputation_multiplier := 1, dispute_cost := 0.1,
    dispute_penalty := 0.2, collusion_detection_prob := 0.5,
    collusion_penalty_multiplier := 2, griefing_cost := 0.05,
    griefing_effectiveness := 0.1, hoarding_cost := 0.02, hoarding_efficiency := 0.3,
    sybil_cost := 1, reputation_decay := 0.01, transactions_per_epoch := 10,
    epochs := 1, warmup_epochs := 0, total_agents := 1,
    honest_percentage := 1, colluder_percentage := 0, griefer_percentage := 0,
    hoarder_percentage := 0, seed := 42 }

/-- C2 -- `run_single_simulation` is a pure function of the configuration,
the sweep parameters, the run id and the seeded generator: two executions
with identical configuration and identical seed (the generator state is a
function of `config['seed'] + run_id` alone) produce identical
`SimulationResult` rows. -/
theorem run_single_simulation_deterministic {σ : Type} (src : RandomSource σ)
    (seedFn : ℤ → σ) (stake_level reputation_decay : ℚ) (collusion_size : ℕ)
    (sybil_cost : ℚ) (cfgA cfgB : Config) (ridA ridB : ℤ)
    (hcfg : cfgA = cfgB) (hrid : ridA = ridB) :
    run_single_simulation src seedFn stake_level reputation_decay collusion_size
        sybil_cost cfgA ridA =
      run_single_simulation src seedFn stake_level reputation_decay collusion_size
        sybil_cost cfgB ridB := by
  subst hcfg
  subst hrid
  rfl

/-- Witness for C2 at a concrete configuration and seed. -/
theorem run_single_simulation_deterministic_witness :
    run_single_simulation zeroSource (fun _ => ()) 1 0.01 5 0 cfgW 0 =
      run_single_simulation zeroSource (fun _ => ()) 1 0.01 5 0 cfgW 0 :=
  run_single_simulation_deterministic zeroSource (fun _ => ()) 1 0.01 5 0
    cfgW cfgW 0 0 rfl rfl

lemma processOne_revenue (cfg : Config) (src : RandomSource σ) (act : Action)
    (st : ProcState) (s : σ) :
    ((processOne cfg src act st s).2.1).total_revenue =
      st.total_revenue + (processOne cfg src act st s).1.reward := rfl

lemma processActions_revenue (cfg : Config) (src : RandomSource σ) (acts : List Action)
    (st : ProcState) (s : σ) :
    ((processActions cfg src acts st s).2.1).total_revenue =
      st.total_revenue + (((processActions cfg src acts st s).1).map (·.reward)).sum := by
  induction acts generalizing st s with
  | nil => simp [processActions]
  | cons act rest ih =>
      unfold processActions
      rcases hPO : processOne cfg src act st s with ⟨o, st', s'⟩
      rcases hPA : processActions cfg src rest st' s' with ⟨os, st'', s''⟩
      have h1 : st'.total_revenue = st.total_revenue + o.reward := by
        have h := processOne_revenue cfg src act st s
        rw [hPO] at h
        exact h
      have h2 := ih st' s'
      rw [hPA] at h2
      simp only [hPA]
      simp only [List.map_cons, List.sum_cons]
      rw [h2, h1]
      ring

/-- C3 -- Per epoch, the sum of the `reward` fields over the outcomes the
epoch produces equals exactly the increment of the engine's `total_revenue`
counter across that epoch (gross rewards, accumulated once per action:
no leakage and no double counting). -/
theorem revenue_conservation (src : RandomSource σ) (m : Model) (s : σ) :
    ((run_epoch src m s).2.1).total_revenue =
      m.total_revenue + (((run_epoch src m s).1.outcomes).map (·.reward)).sum := by
  unfold run_epoch
  dsimp only
  rcases hCA : collectActions src (m.epoch + 1)
      (networkState { m with epoch := m.epoch + 1 }) m.agents s with ⟨ags, acts, s₁⟩
  dsimp only
  rcases hPA : processActions m.cfg src acts
      { agents := ags, total_revenue := m.total_revenue,
        dispute_resolutions := m.dispute_resolutions,
        collusion_detections := m.collusion_detections } s₁ with ⟨outs, st', s₂⟩
  dsimp only
  have h := processActions_revenue m.cfg src acts
    { agents := ags, total_revenue := m.total_revenue,
      dispute_resolutions := m.dispute_resolutions,
      collusion_detections := m.collusion_detections } s₁
  rw [hPA] at h
  exact h

lemma opt_row_count {β Row : Type} (l : List β) (f : β → Option Row) :
    (l.filterMap f).length + ((l.map f).filter (fun r => r.isNone)).length = l.length := by
  induction l with
  | nil => simp
  | cons b t ih =>
      cases h : f b <;> simp [h, List.filterMap_cons] <;> omega

lemma flat_row_count {β Row : Type} (l : List β) (rows : β → List Row)
    (opts : β → List (Option Row)) (k : ℕ)
    (h : ∀ b, (rows b).length + ((opts b).filter (fun r => r.isNone)).length = k) :
    (l.flatMap rows).length +
      ((l.flatMap opts).filter (fun r => r.isNone)).length = l.length * k := by
  induction l with
  | nil => simp
  | cons b t ih =>
      simp only [List.flatMap_cons, List.filter_append, List.length_append,
        List.length_cons]
      have hb := h b
      have hm : (t.length + 1) * k = t.length * k + k := Nat.succ_mul t.length k
      linarith [ih, hb, hm]

/-- C8 -- For a sweep over axes of sizes `N1 × N2 × N3 × N4` with `R`
repetitions per grid point: (1) the raw result table contains exactly
`N1·N2·N3·N4·R` rows minus one row per repetition whose run raised (the
`except` clause catches it and skips only that repetition); (2) every
repetition that succeeds contributes its row to the table, regardless of
failures elsewhere — the rest of the sweep continues. -/
theorem sweep_grid_completeness {Row : Type} (runFn : ℚ → ℚ → ℕ → ℚ → ℕ → Option Row)
    (stake_levels reputation_decays : List ℚ) (collusion_sizes : List ℕ)
    (sybil_costs : List ℚ) (runs_per_point : ℕ) :
    ((run_parameter_sweep runFn stake_levels reputation_decays collusion_sizes
          sybil_costs runs_per_point).length +
        sweepFailures runFn stake_levels reputation_decays collusion_sizes
          sybil_costs runs_per_point =
      stake_levels.length * reputation_decays.length * collusion_sizes.length *
        sybil_costs.length * runs_per_point) ∧
    (∀ sl ∈ stake_levels, ∀ rd ∈ reputation_decays, ∀ cs ∈ collusion_sizes,
      ∀ sc ∈ sybil_costs, ∀ rid < runs_per_point, ∀ row,
        runFn sl rd cs sc rid = some row →
          row ∈ run_parameter_sweep runFn stake_levels reputation_decays
            collusion_sizes sybil_costs runs_per_point) := by
  constructor
  · unfold run_parameter_sweep sweepFailures
    have h := flat_row_count stake_levels
      (fun sl => reputation_decays.flatMap fun rd =>
        collusion_sizes.flatMap fun cs =>
          sybil_costs.flatMap fun sc =>
            (List.range runs_per_point).filterMap fun rid => runFn sl rd cs sc rid)
      (fun sl => reputation_decays.flatMap fun rd =>
        collusion_sizes.flatMap fun cs =>
          sybil_costs.flatMap fun sc =>
            (List.range runs_per_point).map fun rid => runFn sl rd cs sc rid)
      (reputation_decays.length * collusion_sizes.length * sybil_costs.length *
        runs_per_point) ?_
    · rw [h]
      ring
    · intro sl
      have h2 := flat_row_count reputation_decays
        (fun rd => collusion_sizes.flatMap fun cs =>
          sybil_costs.flatMap fun sc =>
            (List.range runs_per_point).filterMap fun rid => runFn sl rd cs sc rid)
        (fun rd => collusion_sizes.flatMap fun cs =>
          sybil_costs.flatMap fun sc =>
            (List.range runs_per_point).map fun rid => runFn sl rd cs sc rid)
        (collusion_sizes.length * sybil_costs.length * runs_per_point) ?_
      · rw [h2]
        ring
      · intro rd
        have h3 := flat_row_count collusion_sizes
          (fun cs => sybil_costs.flatMap fun sc =>
            (List.range runs_per_point).filterMap fun rid => runFn sl rd cs sc rid)
          (fun cs => sybil_costs.flatMap fun sc =>
            (List.range runs_per_point).map fun rid => runFn sl rd cs sc rid)
          (sybil_costs.length * runs_per_point) ?_
        · rw [h3]
          ring
        · intro cs
          have h4 := flat_row_count sybil_costs
            (fun sc => (List.range runs_per_point).filterMap fun rid => runFn sl rd cs sc rid)
            (fun sc => (List.range runs_per_point).map fun rid => runFn sl rd cs sc rid)
            runs_per_point ?_
          · rw [h4]
          · intro sc
            have h5 := opt_row_count (List.range runs_per_point)
              (fun rid => runFn sl rd cs sc rid)
            simpa using h5
  · intro sl hsl rd hrd cs hcs sc hsc rid hrid row hrow
    unfold run_parameter_sweep
    simp only [List.mem_flatMap, List.mem_filterMap]
    exact ⟨sl, hsl, rd, hrd, cs, hcs, sc, hsc, rid, List.mem_range.mpr hrid, hrow⟩

/-- Witness for C8 on a one-point grid with two repetitions, the second of
which fails: the successful row is in the table. -/
theorem sweep_grid_completeness_witness :
    (0 : ℕ) ∈ run_parameter_sweep
      (fun _ _ _ _ rid => if rid = 0 then some 0 else none)
      [1] [0.01] [5] [0] 2 :=
  (sweep_grid_completeness (fun _ _ _ _ rid => if rid = 0 then some (0 : ℕ) else none)
      [1] [0.01] [5] [0] 2).2
    1 (by simp) 0.01 (by simp) 5 (by simp) 0 (by simp) 0 (by norm_num) 0 (by norm_num)

/-- The composition used by the repository's own test
(`sims/tests/test_model.py::test_agent_population`): 10 agents,
60% honest / 30% colluder / 10% griefer, collusion groups of 5. -/
def distTest : AgentDistribution :=
  { total_agents := 10, honest_percentage := 0.6, colluder_percentage := 0.3,
    griefer_percentage := 0.1, hoarder_percentage := 0.0, collusion_size := 5 }

/-- C5 -- the claim (and the repo's test, which asserts 3 colluders for this
composition) says `initialize_agents` creates `⌊0.3 × 10⌋ = 3` colluder
agents, one per colluder identity.  The code instead creates one `Colluder`
agent per collusion group: the 3 identities form a single group (3 ≥ 2, kept
whole since 3 < 5), so exactly 1 colluder agent is created and the whole
population has 8 agents, not 10. -/
theorem colluder_count_bug :
    pyIntNat ((distTest.total_agents : ℚ) * distTest.colluder_percentage) = 3 ∧
    ((initialize_agents zeroSource [1] distTest ()).1.countP
        (fun a => decide (a.agent_type = AgentType.colluder))) = 1 ∧
    (initialize_agents zeroSource [1] distTest ()).1.length = 8 := by
  refine ⟨by decide, by decide, by decide⟩

/-- A configuration with certain collusion detection
(`collusion_detection_prob = 1.0`), a population consisting of a single
colluder agent (two colluder identities forming one group), and two epochs. -/
def cfgC6 : Config :=
  { base_reward := 1, reputation_multiplier := 1, dispute_cost := 0.1,
    dispute_penalty := 0.2, collusion_detection_prob := 1,
    collusion_penalty_multiplier := 2, griefing_cost := 0.05,
    griefing_effectiveness := 0.1, hoarding_cost := 0.02, hoarding_efficiency := 0.3,
    sybil_cost := 1, reputation_decay := 0.01, transactions_per_epoch := 10,
    epochs := 2, warmup_epochs := 0, total_agents := 10,
    honest_percentage := 0, colluder_percentage := 0.2, griefer_percentage := 0,
    hoarder_percentage := 0, seed := 42 }

/-- C6 counterexample -- a run with `collusion_detection_prob = 1.0`, a
colluder population of 1 (`successful_attacks + failed_attacks = 2 + (-1) = 1 > 0`)
and 2 collusion attempts (both detected: `collusion_detections = 2`) reports
`collusion_detection_rate = 2 ≠ 1.0`: the rate divides the cumulative
attempt-detection counter, which can exceed the colluder population. -/
theorem collusion_rate_counterexample :
    cfgC6.collusion_detection_prob = 1 ∧
    (run_single_simulation zeroSource (fun _ => ()) 1 0.01 5 0 cfgC6 0).map
        (fun row => (row.collusion_detection_rate, row.collusion_detections,
          row.successful_attacks, row.failed_attacks)) =
      some (2, 2, 2, -1) ∧
    (2 : ℚ) ≠ 1 := by
  refine ⟨rfl, by decide, by norm_num⟩

lemma listSet_length {α : Type} (f : α → α) (i : ℕ) (l : List α) :
    (listSet f i l).length = l.length := by
  induction l generalizing i with
  | nil => cases i <;> rfl
  | cons x t ih =>
      cases i with
      | zero => rfl
      | succ n => simpa [listSet] using ih n

lemma listSet_forall {α : Type} {P : α → Prop} (f : α → α) (i : ℕ) (l : List α)
    (hl : ∀ a ∈ l, P a) (hf : ∀ a ∈ l, P (f a)) :
    ∀ a ∈ listSet f i l, P a := by
  induction l generalizing i with
  | nil => intro a ha; cases i <;> simp [listSet] at ha
  | cons x t ih =>
      intro a ha
      cases i with
      | zero =>
          rcases List.mem_cons.1 ha with h | h
          · exact h ▸ hf x (List.mem_cons_self _ _)
          · exact hl a (List.mem_cons_of_mem _ h)
      | succ n =>
          rcases List.mem_cons.1 ha with h | h
          · exact h ▸ hl x (List.mem_cons_self _ _)
          · exact ih n (fun b hb => hl b (List.mem_cons_of_mem _ hb))
              (fun b hb => hf b (List.mem_cons_of_mem _ hb)) a h

lemma update_state_is_active (a : Agent) (r p d : ℚ) :
    (a.update_state r p d).is_active = a.is_active := by
  obtain ⟨id, ty, st, rep, bal, rev, los, dw, dl, act, cg, cc, gi, ht, hs⟩ := a
  cases ty <;> dsimp [Agent.update_state] <;> split <;> rfl

lemma decayAgent_is_active (d : ℚ) (a : Agent) :
    (decayAgent d a).is_active = a.is_active := by
  unfold decayAgent
  split <;> rfl

lemma decide_action_is_active (src : RandomSource σ) (a : Agent) (e : ℕ)
    (ns : NetworkState) (s : σ) :
    ((decide_action src a e ns s).2.1).is_active = a.is_active := by
  obtain ⟨id, ty, st, rep, bal, rev, los, dw, dl, act, cg, cc, gi, ht, hs⟩ := a
  cases ty <;> dsimp [decide_action] <;> (repeat' split) <;> rfl

lemma getD_is_active : ∀ (l : List Agent) (i : ℕ),
    (∀ a ∈ l, a.is_active = true) → (l.getD i defaultAgent).is_active = true
  | [], i, _ => by cases i <;> rfl
  | a :: t, 0, h => by simpa using h a (List.mem_cons_self _ _)
  | a :: t, i + 1, h => by
      simpa using getD_is_active t i (fun b hb => h b (List.mem_cons_of_mem _ hb))

lemma processCore_agent_is_active (cfg : Config) (src : RandomSource σ) (act : Action)
    (agent : Agent) (det disp : ℕ) (s : σ) :
    ((processCore cfg src act agent det disp s).2.2.2.2.2.1).is_active =
      agent.is_active := by
  unfold processCore
  dsimp only
  repeat' split
  all_goals rfl

lemma processOne_agents_eq (cfg : Config) (src : RandomSource σ) (act : Action)
    (st : ProcState) (s : σ) :
    ((processOne cfg src act st s).2.1).agents =
      listSet (fun _ => (processCore cfg src act
          (st.agents.getD act.agent_id defaultAgent) st.collusion_detections
          st.dispute_resolutions s).2.2.2.2.2.1) act.agent_id st.agents := rfl

lemma processOne_preserves (cfg : Config) (src : RandomSource σ) (act : Action)
    (st : ProcState) (s : σ) (hl : ∀ a ∈ st.agents, a.is_active = true) :
    (∀ a ∈ ((processOne cfg src act st s).2.1).agents, a.is_active = true) ∧
      ((processOne cfg src act st s).2.1).agents.length = st.agents.length := by
  constructor
  · rw [processOne_agents_eq]
    refine listSet_forall _ _ _ hl ?_
    intro b _
    rw [processCore_agent_is_active]
    exact getD_is_active st.agents act.agent_id hl
  · rw [processOne_agents_eq]
    exact listSet_length _ _ _

lemma processActions_preserves (cfg : Config) (src : RandomSource σ)
    (acts : List Action) (st : ProcState) (s : σ)
    (hl : ∀ a ∈ st.agents, a.is_active = true) :
    (∀ a ∈ ((processActions cfg src acts st s).2.1).agents, a.is_active = true) ∧
      ((processActions cfg src acts st s).2.1).agents.length = st.agents.length := by
  induction acts generalizing st s with
  | nil => exact ⟨hl, rfl⟩
  | cons act rest ih =>
      have h1 := processOne_preserves cfg src act st s hl
      have h2 := ih (processOne cfg src act st s).2.1
        (processOne cfg src act st s).2.2 h1.1
      have heqA : ((processActions cfg src (act :: rest) st s).2.1).agents =
          ((processActions cfg src rest (processOne cfg src act st s).2.1
            (processOne cfg src act st s).2.2).2.1).agents := rfl
      exact ⟨by rw [heqA]; exact h2.1, by rw [heqA]; exact h2.2.trans h1.2⟩

lemma processCore_detections (cfg : Config) (src : RandomSource σ) (act : Action)
    (agent : Agent) (det disp : ℕ) (s : σ)
    (hr : ∀ st, (src.random st).1 < 1) (hp : cfg.collusion_detection_prob = 1) :
    (processCore cfg src act agent det disp s).2.2.2.1 =
      det + (if act.collude then 1 else 0) := by
  unfold processCore
  rw [hp]
  cases hc : act.collude with
  | true =>
      simp only [hc, if_true]
      have h1 : (src.random s).1 < 1 := hr s
      simp only [h1, if_pos]
      repeat' split
      all_goals rfl
  | false =>
      simp only [hc, if_false, Bool.false_eq_true]
      repeat' split
      all_goals rfl

lemma processOne_detections (cfg : Config) (src : RandomSource σ) (act : Action)
    (st : ProcState) (s : σ)
    (hr : ∀ st, (src.random st).1 < 1) (hp : cfg.collusion_detection_prob = 1) :
    ((processOne cfg src act st s).2.1).collusion_detections =
      st.collusion_detections + (if act.collude then 1 else 0) := by
  have heq : ((processOne cfg src act st s).2.1).collusion_detections =
      (processCore cfg src act (st.agents.getD act.agent_id defaultAgent)
        st.collusion_detections st.dispute_resolutions s).2.2.2.1 := rfl
  rw [heq]
  exact processCore_detections cfg src act _ _ _ s hr hp

lemma processActions_detections (cfg : Config) (src : RandomSource σ)
    (acts : List Action) (st : ProcState) (s : σ)
    (hr : ∀ st, (src.random st).1 < 1) (hp : cfg.collusion_detection_prob = 1) :
    ((processActions cfg src acts st s).2.1).collusion_detections =
      st.collusion_detections + acts.countP (·.collude) := by
  induction acts generalizing st s with
  | nil => simp [processActions]
  | cons act rest ih =>
      have h1 := processOne_detections cfg src act st s hr hp
      have h2 := ih (processOne cfg src act st s).2.1 (processOne cfg src act st s).2.2
      have heq : ((processActions cfg src (act :: rest) st s).2.1).collusion_detections =
          ((processActions cfg src rest (processOne cfg src act st s).2.1
            (processOne cfg src act st s).2.2).2.1).collusion_detections := rfl
      rw [heq, h2, h1, List.countP_cons]
      cases hc : act.collude <;> simp [hc] <;> omega

lemma get_simulation_result_rate (m : Model) (res : SimulationResult)
    (h : get_simulation_result m = some res) :
    res.collusion_detection_rate = (m.collusion_detections : ℚ) /
      (((max 1 ((m.agents.filter (·.is_active)).filter
          (fun a => decide (a.agent_type = AgentType.colluder))).length : ℕ)) : ℚ) := by
  unfold get_simulation_result at h
  dsimp only at h
  split at h
  · exact absurd h (by simp)
  · split at h
    · exact absurd h (by simp)
    · rw [Option.some.injEq] at h
      subst h
      rfl

/-- C6 (amended) -- with `collusion_detection_prob = 1.0` and
`random.random() < 1`, every collusion attempt is detected: the engine's
`collusion_detections` counter increments by exactly the number of colluding
actions processed.  The reported `collusion_detection_rate` therefore equals
the cumulative number of collusion attempts divided by
`max(1, colluder population)` — which equals `1.0` exactly when attempts
happen to equal that denominator, not in every run with at least one attempt
(one colluder attacking in several epochs drives the rate above 1). -/
theorem collusion_detection_rate_amended {σ : Type} (src : RandomSource σ)
    (cfg : Config) (hr : ∀ st, (src.random st).1 < 1)
    (hp : cfg.collusion_detection_prob = 1) :
    (∀ acts st s, ((processActions cfg src acts st s).2.1).collusion_detections =
        st.collusion_detections + acts.countP (·.collude)) ∧
    (∀ m res, get_simulation_result m = some res →
      res.collusion_detection_rate = (m.collusion_detections : ℚ) /
        (((max 1 ((m.agents.filter (·.is_active)).filter
            (fun a => decide (a.agent_type = AgentType.colluder))).length : ℕ)) : ℚ)) :=
  ⟨fun acts st s => processActions_detections cfg src acts st s hr hp,
    fun m res h => get_simulation_result_rate m res h⟩

/-- A single colluding action, used to instantiate C6's amended theorem. -/
def actW : Action :=
  { agent_id := 0, agent_type := .colluder, action := "collude",
    stake_committed := 0.3, quality := 0.3, collude := true, grief := false,
    hoard := false, collusion_group := [0, 1] }

/-- Witness for C6's amended theorem: processing one colluding action under
certain detection increments the detection counter by one. -/
theorem collusion_detection_rate_amended_witness :
    ((processActions cfgC6 zeroSource [actW]
        { agents := [mkColluder 0 1 [0, 1]], total_revenue := 0,
          dispute_resolutions := 0, collusion_detections := 0 } ()).2.1).collusion_detections =
      ({ agents := [mkColluder 0 1 [0, 1]], total_revenue := 0,
          dispute_resolutions := 0, collusion_detections := 0 } : ProcState).collusion_detections +
        ([actW].countP (·.collude)) :=
  (collusion_detection_rate_amended zeroSource cfgC6
      (by intro st; norm_num [zeroSource]) rfl).1
    [actW]
    { agents := [mkColluder 0 1 [0, 1]], total_revenue := 0,
      dispute_resolutions := 0, collusion_detections := 0 } ()

lemma foldl_outcomes_preserves (outs : List Outcome) (l : List Agent)
    (hl : ∀ a ∈ l, a.is_active = true) :
    (∀ a ∈ outs.foldl (fun ags o => listSet
        (fun a => a.update_state o.reward o.penalty o.reputation_change) o.agent_id ags) l,
      a.is_active = true) ∧
      (outs.foldl (fun ags o => listSet
        (fun a => a.update_state o.reward o.penalty o.reputation_change) o.agent_id ags)
          l).length = l.length := by
  induction outs generalizing l with
  | nil => exact ⟨hl, rfl⟩
  | cons o rest ih =>
      simp only [List.foldl_cons]
      have hstep : ∀ a ∈ listSet
          (fun a => a.update_state o.reward o.penalty o.reputation_change) o.agent_id l,
          a.is_active = true :=
        listSet_forall _ _ _ hl (fun a ha => by
          rw [update_state_is_active]
          exact hl a ha)
      have hlen := listSet_length
        (fun a => a.update_state o.reward o.penalty o.reputation_change) o.agent_id l
      obtain ⟨ih1, ih2⟩ := ih _ hstep
      exact ⟨ih1, ih2.trans hlen⟩

lemma decay_preserves (d : ℚ) (l : List Agent) (hl : ∀ a ∈ l, a.is_active = true) :
    (∀ a ∈ applyReputationDecay d l, a.is_active = true) ∧
      (applyReputationDecay d l).length = l.length := by
  constructor
  · intro a ha
    rcases List.mem_map.1 ha with ⟨b, hb, rfl⟩
    rw [decayAgent_is_active]
    exact hl b hb
  · simp [applyReputationDecay]

lemma collectActions_preserves (src : RandomSource σ) (e : ℕ) (ns : NetworkState)
    (l : List Agent) (s : σ) (hl : ∀ a ∈ l, a.is_active = true) :
    (∀ a ∈ (collectActions src e ns l s).1, a.is_active = true) ∧
      (collectActions src e ns l s).1.length = l.length := by
  induction l generalizing s with
  | nil => exact ⟨fun a ha => absurd ha (List.not_mem_nil a), rfl⟩
  | cons a t ih =>
      have hat : ∀ b ∈ t, b.is_active = true :=
        fun b hb => hl b (List.mem_cons_of_mem _ hb)
      have hstep : collectActions src e ns (a :: t) s =
          if a.is_active && a.is_solvent then
            ((decide_action src a e ns s).2.1 ::
                (collectActions src e ns t (decide_action src a e ns s).2.2).1,
              (decide_action src a e ns s).1 ::
                (collectActions src e ns t (decide_action src a e ns s).2.2).2.1,
              (collectActions src e ns t (decide_action src a e ns s).2.2).2.2)
          else
            (a :: (collectActions src e ns t s).1,
              (collectActions src e ns t s).2.1,
              (collectActions src e ns t s).2.2) := rfl
      by_cases hc : (a.is_active && a.is_solvent) = true
      · have heq : (collectActions src e ns (a :: t) s).1 =
            (decide_action src a e ns s).2.1 ::
              (collectActions src e ns t (decide_action src a e ns s).2.2).1 := by
          rw [hstep, if_pos hc]
        obtain ⟨ih1, ih2⟩ := ih (decide_action src a e ns s).2.2 hat
        constructor
        · intro b hb
          rw [heq] at hb
          rcases List.mem_cons.1 hb with h | h
          · rw [h, decide_action_is_active]
            exact hl a (List.mem_cons_self _ _)
          · exact ih1 b h
        · rw [heq]
          simp [ih2]
      · have heq : (collectActions src e ns (a :: t) s).1 =
            a :: (collectActions src e ns t s).1 := by
          rw [hstep, if_neg hc]
        obtain ⟨ih1, ih2⟩ := ih s hat
        constructor
        · intro b hb
          rw [heq] at hb
          rcases List.mem_cons.1 hb with h | h
          · rw [h]
            exact hl a (List.mem_cons_self _ _)
          · exact ih1 b h
        · rw [heq]
          simp [ih2]

lemma run_epoch_preserves (src : RandomSource σ) (m : Model) (s : σ)
    (hm : ∀ a ∈ m.agents, a.is_active = true) :
    (∀ a ∈ ((run_epoch src m s).2.1).agents, a.is_active = true) ∧
      ((run_epoch src m s).2.1).agents.length = m.agents.length ∧
      (run_epoch src m s).1.active_agents = m.agents.length := by
  set ns := networkState { m with epoch := m.epoch + 1 } with hns
  set A := collectActions src (m.epoch + 1) ns m.agents s with hA
  set st0 : ProcState :=
    { agents := A.1, total_revenue := m.total_revenue,
      dispute_resolutions := m.dispute_resolutions,
      collusion_detections := m.collusion_detections } with hst0
  set P := processActions m.cfg src A.2.1 st0 A.2.2 with hP
  set B := P.1.foldl (fun ags o => listSet
    (fun a => a.update_state o.reward o.penalty o.reputation_change) o.agent_id ags)
    P.2.1.agents with hB
  set C := applyReputationDecay m.cfg.reputation_decay B with hC
  have hAgents : ((run_epoch src m s).2.1).agents = C := rfl
  have hCount : (run_epoch src m s).1.active_agents = (C.filter (·.is_active)).length := rfl
  obtain ⟨h1, h1len⟩ := collectActions_preserves src (m.epoch + 1) ns m.agents s hm
  have h1' : ∀ a ∈ st0.agents, a.is_active = true := h1
  obtain ⟨h2, h2len⟩ := processActions_preserves m.cfg src A.2.1 st0 A.2.2 h1'
  obtain ⟨h3, h3len⟩ := foldl_outcomes_preserves P.1 P.2.1.agents h2
  obtain ⟨h4, h4len⟩ := decay_preserves m.cfg.reputation_decay B h3
  have hClen : C.length = m.agents.length := by
    rw [hC]
    rw [h4len, h3len]
    calc P.2.1.agents.length = st0.agents.length := h2len
      _ = m.agents.length := h1len
  refine ⟨?_, ?_, ?_⟩
  · rw [hAgents]
    exact h4
  · rw [hAgents]
    exact hClen
  · rw [hCount]
    have hfil : C.filter (·.is_active) = C :=
      List.filter_eq_self.mpr (fun a ha => h4 a ha)
    rw [hfil]
    exact hClen

lemma runEpochs_preserves (src : RandomSource σ) (n : ℕ) (m : Model) (s : σ)
    (hm : ∀ a ∈ m.agents, a.is_active = true) :
    ∀ a ∈ (runEpochs src n m s).1.agents, a.is_active = true := by
  induction n generalizing m s with
  | zero => exact hm
  | succ k ih =>
      have h := (run_epoch_preserves src m s hm).1
      have heq : runEpochs src (k + 1) m s =
          runEpochs src k (run_epoch src m s).2.1 (run_epoch src m s).2.2 := rfl
      rw [heq]
      exact ih (run_epoch src m s).2.1 (run_epoch src m s).2.2 h

lemma mkHonestAgents_active (src : RandomSource σ) (levels : List ℚ) :
    ∀ (n agent_id : ℕ) (s : σ),
      ∀ a ∈ (mkHonestAgents src levels n agent_id s).1, a.is_active = true := by
  intro n
  induction n with
  | zero => intro agent_id s a ha; cases ha
  | succ k ih =>
      intro agent_id s a ha
      have heq : (mkHonestAgents src levels (k + 1) agent_id s).1 =
          mkHonest agent_id (pyChoice src levels s).1 ::
            (mkHonestAgents src levels k (agent_id + 1) (pyChoice src levels s).2).1 := rfl
      rw [heq] at ha
      rcases List.mem_cons.1 ha with h | h
      · rw [h]; rfl
      · exact ih (agent_id + 1) (pyChoice src levels s).2 a h

lemma mkColluderAgents_active (src : RandomSource σ) (levels : List ℚ) :
    ∀ (gs : List (List ℕ)) (agent_id : ℕ) (s : σ),
      ∀ a ∈ (mkColluderAgents src levels gs agent_id s).1, a.is_active = true := by
  intro gs
  induction gs with
  | nil => intro agent_id s a ha; cases ha
  | cons g t ih =>
      intro agent_id s a ha
      have heq : (mkColluderAgents src levels (g :: t) agent_id s).1 =
          mkColluder agent_id (pyChoice src levels s).1 g ::
            (mkColluderAgents src levels t (agent_id + 1) (pyChoice src levels s).2).1 := rfl
      rw [heq] at ha
      rcases List.mem_cons.1 ha with h | h
      · rw [h]; rfl
      · exact ih (agent_id + 1) (pyChoice src levels s).2 a h

lemma mkGrieferAgents_active (src : RandomSource σ) (levels : List ℚ) :
    ∀ (n agent_id : ℕ) (s : σ),
      ∀ a ∈ (mkGrieferAgents src levels n agent_id s).1, a.is_active = true := by
  intro n
  induction n with
  | zero => intro agent_id s a ha; cases ha
  | succ k ih =>
      intro agent_id s a ha
      have heq : (mkGrieferAgents src levels (k + 1) agent_id s).1 =
          mkGriefer agent_id (pyChoice src levels s).1
              (uniform src 0.5 1.0 (pyChoice src levels s).2).1 ::
            (mkGrieferAgents src levels k (agent_id + 1)
              (uniform src 0.5 1.0 (pyChoice src levels s).2).2).1 := rfl
      rw [heq] at ha
      rcases List.mem_cons.1 ha with h | h
      · rw [h]; rfl
      · exact ih (agent_id + 1) (uniform src 0.5 1.0 (pyChoice src levels s).2).2 a h

lemma mkHoarderAgents_active (src : RandomSource σ) (levels : List ℚ) :
    ∀ (n agent_id : ℕ) (s : σ),
      ∀ a ∈ (mkHoarderAgents src levels n agent_id s).1, a.is_active = true := by
  intro n
  induction n with
  | zero => intro agent_id s a ha; cases ha
  | succ k ih =>
      intro agent_id s a ha
      have heq : (mkHoarderAgents src levels (k + 1) agent_id s).1 =
          mkHoarder agent_id (pyChoice src levels s).1 ::
            (mkHoarderAgents src levels k (agent_id + 1) (pyChoice src levels s).2).1 := rfl
      rw [heq] at ha
      rcases List.mem_cons.1 ha with h | h
      · rw [h]; rfl
      · exact ih (agent_id + 1) (pyChoice src levels s).2 a h

lemma initialize_agents_active (src : RandomSource σ) (levels : List ℚ)
    (dist : AgentDistribution) (s : σ) :
    ∀ a ∈ (initialize_agents src levels dist s).1, a.is_active = true := by
  set nH := pyIntNat ((dist.total_agents : ℚ) * dist.honest_percentage) with hnH
  set H := mkHonestAgents src levels nH 0 s with hH
  set nC := pyIntNat ((dist.total_agents : ℚ) * dist.colluder_percentage) with hnC
  set G := create_collusion_groups src nC dist.collusion_size H.2.2 with hG
  set Cl := mkColluderAgents src levels G.1 H.2.1 G.2 with hCl
  set nG := pyIntNat ((dist.total_agents : ℚ) * dist.griefer_percentage) with hnG
  set Gr := mkGrieferAgents src levels nG Cl.2.1 Cl.2.2 with hGr
  set nHo := pyIntNat ((dist.total_agents : ℚ) * dist.hoarder_percentage) with hnHo
  set Ho := mkHoarderAgents src levels nHo Gr.2.1 Gr.2.2 with hHo
  have heq : (initialize_agents src levels dist s).1 = H.1 ++ Cl.1 ++ Gr.1 ++ Ho.1 := rfl
  rw [heq]
  intro a ha
  rcases List.mem_append.1 ha with h | h
  · rcases List.mem_append.1 h with h2 | h2
    · rcases List.mem_append.1 h2 with h3 | h3
      · exact mkHonestAgents_active src levels nH 0 s a h3
      · exact mkColluderAgents_active src levels G.1 H.2.1 G.2 a h3
    · exact mkGrieferAgents_active src levels nG Cl.2.1 Cl.2.2 a h2
  · exact mkHoarderAgents_active src levels nHo Gr.2.1 Gr.2.2 a h

lemma get_simulation_result_liveness (m : Model) (res : SimulationResult)
    (hm : ∀ a ∈ m.agents, a.is_active = true)
    (h : get_simulation_result m = some res) : res.liveness_score = 1 := by
  have hfil : m.agents.filter (·.is_active) = m.agents :=
    List.filter_eq_self.mpr (fun a ha => hm a ha)
  unfold get_simulation_result at h
  dsimp only at h
  rw [hfil] at h
  split at h
  · exact absurd h (by simp)
  · rename_i hne
    split at h
    · exact absurd h (by simp)
    · rw [Option.some.injEq] at h
      subst h
      dsimp only
      exact div_self (Nat.cast_ne_zero.mpr hne)

/-- C9 -- no operation of the epoch engine ever clears an agent's
`is_active` flag: the population created by `initialize_agents` is fully
active, `run_epoch` (decisions, outcome processing, state updates,
reputation decay) keeps every agent active and keeps the population size
constant, the epoch summary's active-agent count equals the total agent
count at every epoch, and every `SimulationResult` a run actually returns
reports `liveness_score = 1.0` exactly. -/
theorem all_agents_stay_active {σ : Type} (src : RandomSource σ) :
    (∀ levels dist s, ∀ a ∈ (initialize_agents src levels dist s).1, a.is_active = true) ∧
    (∀ m s, (∀ a ∈ m.agents, a.is_active = true) →
      (∀ a ∈ ((run_epoch src m s).2.1).agents, a.is_active = true) ∧
        ((run_epoch src m s).2.1).agents.length = m.agents.length ∧
        (run_epoch src m s).1.active_agents = m.agents.length) ∧
    (∀ n m s, (∀ a ∈ m.agents, a.is_active = true) →
      ∀ a ∈ (runEpochs src n m s).1.agents, a.is_active = true) ∧
    (∀ m res, (∀ a ∈ m.agents, a.is_active = true) →
      get_simulation_result m = some res → res.liveness_score = 1) :=
  ⟨fun levels dist s => initialize_agents_active src levels dist s,
    fun m s hm => run_epoch_preserves src m s hm,
    fun n m s hm => runEpochs_preserves src n m s hm,
    fun m res hm h => get_simulation_result_liveness m res hm h⟩

/-- A one-honest-agent model used to instantiate C9's theorem. -/
def mC9 : Model :=
  { cfg := cfgW, agents := [mkHonest 0 1], epoch := 0, total_revenue := 0,
    total_stake := 1, dispute_resolutions := 0, collusion_detections := 0 }

/-- The result `get_simulation_result` computes for `mC9`. -/
def resC9 : SimulationResult :=
  { honest_share_of_revenue := 0, expected_loss_for_honest := 0,
    stake_at_risk_curves := [(1.0, 0)], liveness_score := 1,
    collusion_detection_rate := 0, griefing_effectiveness := 0,
    hoarding_influence := 0, total_transactions := 0, successful_attacks := 0,
    failed_attacks := 0 }

/-- Witness for C9 at the concrete model `mC9`. -/
theorem all_agents_stay_active_witness : resC9.liveness_score = 1 :=
  (all_agents_stay_active zeroSource).2.2.2 mC9 resC9 (by decide) (by decide)

/-- The `_process_actions` outcome rules with the `elif action['grief']`
branch deleted.  Compared with `processCore` to state that the griefing
penalty branch is dead code whenever the processed actions all carry
`grief = False`. -/
def processCoreNoGrief (cfg : Config) (src : RandomSource σ) (act : Action) (agent : Agent)
    (detections disputes : ℕ) (s : σ) : ℚ × ℚ × ℚ × ℕ × ℕ × Agent × σ :=
  let base_reward := cfg.base_reward
  let quality_multiplier := act.quality
  let reputation_multiplier := 1 + (agent.reputation - 0.5) * cfg.reputation_multiplier
  let reward := base_reward * quality_multiplier * reputation_multiplier
  let (reward, penalty, reputation_change, detections, s) : ℚ × ℚ × ℚ × ℕ × σ :=
    if act.collude then
      let (r, s) := src.random s
      if r < cfg.collusion_detection_prob then
        (reward, reward * cfg.collusion_penalty_multiplier, -0.3, detections + 1, s)
      else
        (reward * 1.5, 0, 0, detections, s)
    else if act.hoard then
      let (r, s) := src.random s
      if r < cfg.hoarding_efficiency then
        (reward, cfg.hoarding_cost, 0.1, detections, s)
      else
        (reward, cfg.hoarding_cost, 0, detections, s)
    else
      (reward, 0, 0, detections, s)
  let (r, s) := src.random s
  if r < 0.1 then
    let (r2, s) := src.random s
    if r2 < agent.reputation then
      (reward + cfg.dispute_cost, penalty, reputation_change, detections, disputes + 1,
        { agent with disputes_won := agent.disputes_won + 1 }, s)
    else
      (reward, penalty + cfg.dispute_penalty, reputation_change - 0.1, detections,
        disputes + 1, { agent with disputes_lost := agent.disputes_lost + 1 }, s)
  else
    (reward, penalty, reputation_change, detections, disputes, agent, s)

/-- `processOne` built on the grief-free outcome rules. -/
def processOneNoGrief (cfg : Config) (src : RandomSource σ) (act : Action)
    (st : ProcState) (s : σ) : Outcome × ProcState × σ :=
  let agent := st.agents.getD act.agent_id defaultAgent
  let (reward, penalty, reputation_change, detections, disputes, agent', s') :=
    processCoreNoGrief cfg src act agent st.collusion_detections st.dispute_resolutions s
  ({ agent_id := act.agent_id, agent_type := act.agent_type, reward := reward,
     penalty := penalty, reputation_change := reputation_change, action := act.action },
   { agents := listSet (fun _ => agent') act.agent_id st.agents,
     total_revenue := st.total_revenue + reward,
     dispute_resolutions := disputes,
     collusion_detections := detections }, s')

lemma processCore_noGrief_eq (cfg : Config) (src : RandomSource σ) (act : Action)
    (agent : Agent) (det disp : ℕ) (s : σ) (h : act.grief = false) :
    processCore cfg src act agent det disp s =
      processCoreNoGrief cfg src act agent det disp s := by
  unfold processCore processCoreNoGrief
  rw [h]
  simp only [Bool.false_eq_true, if_false]

lemma processOne_noGrief_eq (cfg : Config) (src : RandomSource σ) (act : Action)
    (st : ProcState) (s : σ) (h : act.grief = false) :
    processOne cfg src act st s = processOneNoGrief cfg src act st s := by
  unfold processOne processOneNoGrief
  dsimp only
  rw [processCore_noGrief_eq cfg src act _ _ _ s h]

lemma decide_action_no_grief (src : RandomSource σ) (a : Agent) (e : ℕ)
    (ns : NetworkState) (s : σ) (hlive : ns.liveness = 1)
    (hr : ∀ st, 0 ≤ (src.random st).1) :
    ((decide_action src a e ns s).1).grief = false := by
  obtain ⟨id, ty, st, rep, bal, rev, los, dw, dl, act, cg, cc, gi, ht, hs⟩ := a
  cases ty
  case honest => rfl
  case colluder => rfl
  case griefer =>
      show decide ((src.random s).1 < gi * (1 - ns.liveness)) = false
      rw [hlive]
      have h0 : gi * (1 - (1 : ℚ)) = 0 := by ring
      rw [h0]
      exact decide_eq_false (not_lt.mpr (hr s))
  case hoarder =>
      dsimp [decide_action]
      repeat' split
      all_goals rfl

lemma networkState_liveness_one (m : Model) (hne : m.agents ≠ [])
    (hm : ∀ a ∈ m.agents, a.is_active = true) : (networkState m).liveness = 1 := by
  unfold networkState
  dsimp only
  rw [List.filter_eq_self.mpr hm]
  have hlen : m.agents.length ≠ 0 := fun h => hne (List.length_eq_zero.mp h)
  exact div_self (Nat.cast_ne_zero.mpr hlen)

lemma collectActions_no_grief (src : RandomSource σ) (e : ℕ) (ns : NetworkState)
    (hlive : ns.liveness = 1) (hr : ∀ st, 0 ≤ (src.random st).1) :
    ∀ (l : List Agent) (s : σ),
      ((collectActions src e ns l s).2.1).all (fun act => !act.grief) = true := by
  intro l
  induction l with
  | nil => intro s; rfl
  | cons a t ih =>
      intro s
      have hstep : collectActions src e ns (a :: t) s =
          if a.is_active && a.is_solvent then
            ((decide_action src a e ns s).2.1 ::
                (collectActions src e ns t (decide_action src a e ns s).2.2).1,
              (decide_action src a e ns s).1 ::
                (collectActions src e ns t (decide_action src a e ns s).2.2).2.1,
              (collectActions src e ns t (decide_action src a e ns s).2.2).2.2)
          else
            (a :: (collectActions src e ns t s).1,
              (collectActions src e ns t s).2.1,
              (collectActions src e ns t s).2.2) := rfl
      by_cases hc : (a.is_active && a.is_solvent) = true
      · have heq : (collectActions src e ns (a :: t) s).2.1 =
            (decide_action src a e ns s).1 ::
              (collectActions src e ns t (decide_action src a e ns s).2.2).2.1 := by
          rw [hstep, if_pos hc]
        rw [heq]
        simp only [List.all_cons, Bool.and_eq_true]
        constructor
        · rw [decide_action_no_grief src a e ns s hlive hr]
          rfl
        · exact ih (decide_action src a e ns s).2.2
      · have heq : (collectActions src e ns (a :: t) s).2.1 =
            (collectActions src e ns t s).2.1 := by
          rw [hstep, if_neg hc]
        rw [heq]
        exact ih s

/-- C10 -- with a non-empty, fully active population the network-state
liveness observed by policies is exactly 1, so a `Griefer`'s griefing
probability `intensity × (1 − liveness)` is 0 and (since
`random.random() ≥ 0`) `decide_action` returns `grief = False` for every
agent; consequently every action collected in an epoch carries
`grief = False`, and processing such an action is identical to processing
it under outcome rules with the griefing penalty branch deleted — the
branch is never executed. -/
theorem griefing_branch_never_executed {σ : Type} (src : RandomSource σ)
    (hr : ∀ st, 0 ≤ (src.random st).1) :
    (∀ m, m.agents ≠ [] → (∀ a ∈ m.agents, a.is_active = true) →
      (networkState m).liveness = 1) ∧
    (∀ a e ns s, ns.liveness = 1 → ((decide_action src a e ns s).1).grief = false) ∧
    (∀ e ns, ns.liveness = 1 → ∀ l s,
      ((collectActions src e ns l s).2.1).all (fun act => !act.grief) = true) ∧
    (∀ cfg act st s, act.grief = false →
      processOne cfg src act st s = processOneNoGrief cfg src act st s) :=
  ⟨fun m hne hm => networkState_liveness_one m hne hm,
    fun a e ns s hlive => decide_action_no_grief src a e ns s hlive hr,
    fun e ns hlive l s => collectActions_no_grief src e ns hlive hr l s,
    fun cfg act st s h => processOne_noGrief_eq cfg src act st s h⟩

/-- A two-agent (honest + griefer) model used to instantiate C10. -/
def mC10 : Model :=
  { cfg := cfgW, agents := [mkHonest 0 1, mkGriefer 1 1 0.75], epoch := 0,
    total_revenue := 0, total_stake := 2, dispute_resolutions := 0,
    collusion_detections := 0 }

/-- Witness for C10: in the concrete model `mC10` every collected action has
`grief = False`. -/
theorem griefing_branch_never_executed_witness :
    ((collectActions zeroSource 1 (networkState mC10) mC10.agents ()).2.1).all
        (fun act => !act.grief) = true :=
  (griefing_branch_never_executed zeroSource (fun _ => le_refl 0)).2.2.1 1
    (networkState mC10)
    ((griefing_branch_never_executed zeroSource (fun _ => le_refl 0)).1 mC10
      (by decide) (by decide))
    mC10.agents ()

end Pandacea

